import Mathlib

/-!
Verification of the triplet model and dependency-staging logic of the
openrw-windows-dependencies scripts (pyvcpkg.py and deps.py), via a shallow
embedding: Python strings become `List Char`, filesystem paths become lists of
path components, and operations that can raise exceptions return `Option`.
-/

namespace PyVcpkg

/-- Embeds Python's `str.split(sep)` for a one-character separator: splits at
every occurrence of `sep`, keeping empty pieces, so the result always has at
least one element (the empty string splits to one empty piece). -/
def splitChar (sep : Char) : List Char → List (List Char)
  | [] => [[]]
  | c :: cs =>
    match splitChar sep cs with
    | [] => [[]]
    | r :: rs => if c = sep then [] :: r :: rs else (c :: r) :: rs

/-- The triplet value type of pyvcpkg.py: three string fields. -/
structure Triplet where
  arch : List Char
  system : List Char
  linkage : List Char
deriving DecidableEq

/-- Embeds `Triplet.from_string`: split the string on `-`; when that yields
exactly 2 components, append `dynamic`; then read components 0, 1, 2.  The
Python code raises `IndexError` when fewer than three components remain
(i.e. on a dash-free input), embedded as `none`. -/
def from_string (triplet_string : List Char) : Option Triplet :=
  let triplet_list := splitChar '-' triplet_string
  let triplet_list :=
    if triplet_list.length = 2 then triplet_list ++ ["dynamic".toList] else triplet_list
  match triplet_list with
  | a :: s :: l :: _ => some ⟨a, s, l⟩
  | _ => none

/-- Embeds `Triplet.__str__`: the format is `arch-system-linkage` when the
linkage equals `static`, and `arch-system` otherwise. -/
def triplet_str (t : Triplet) : List Char :=
  if t.linkage = "static".toList then t.arch ++ '-' :: t.system ++ '-' :: t.linkage
  else t.arch ++ '-' :: t.system

/-- Embeds `Triplet.__eq__` as written in the source (pyvcpkg.py line 31):
`self.arch == other.arch and self.system == other.arch and self.linkage ==
other.linkage`.  Note the second conjunct compares `self.system` against
`other.arch`. -/
def triplet_eq (t other : Triplet) : Bool :=
  t.arch == other.arch && t.system == other.arch && t.linkage == other.linkage

/-- Embeds `Triplet.__hash__`: the XOR of the hashes of the three fields,
parametrised by the string-hash function `h` (Python's string hash is
seed-dependent; every claim about `__hash__` holds for an arbitrary `h`). -/
def triplet_hash (h : List Char → Nat) (t : Triplet) : Nat :=
  h t.arch ^^^ h t.system ^^^ h t.linkage

/-- Embeds the triplet enumeration of `main` (pyvcpkg.py lines 188-192):
nested loops over architectures, then systems, then linkages, appending a
`Triplet` for each combination. -/
def make_triplets (archs systems linkages : List (List Char)) : List Triplet :=
  archs.flatMap fun arch =>
    systems.flatMap fun system =>
      linkages.map fun linkage => ⟨arch, system, linkage⟩

/-- The built-in dependency registry of deps.py. -/
def DEPENDENCIES : List (List Char) :=
  ["bullet3".toList, "glm".toList, "ffmpeg".toList, "openal-soft".toList, "sdl2".toList]

/-- Embeds `CommaSplitter.__call__` for an option constructed with a non-empty
`choices` list (options -a, -s, -l): the raw string value is split on commas
and each piece is validated against the choices; an invalid piece triggers
`parser.error` (embedded as `none`). -/
def comma_splitter_choices (choices : List (List Char)) (value : List Char) :
    Option (List (List Char)) :=
  let values := splitChar ',' value
  if values.all (fun v => choices.contains v) then some values else none

/-- Embeds the resolution of the -w dependency filter (pyvcpkg.py lines
125-139, 158-159, 185-186).  The -w option is declared with `nargs=1` and
`action=CommaSplitter` but without `choices`, so in `CommaSplitter.__call__`
the guard `if self._choices` is false and the one-element list produced by
`nargs=1` is stored unchanged — no comma splitting happens.  `main` then
replaces a falsy `options.what` (the default `[]`, i.e. option absent) with
`DEPENDENCIES`. -/
def resolve_what (wopt : Option (List Char)) : List (List Char) :=
  match wopt with
  | none => DEPENDENCIES
  | some v => [v]

/-- The whitespace characters recognised by Python's `str.split()` (ASCII
range; the parsed lines contain no other whitespace). -/
def isPySpace (c : Char) : Bool :=
  c = ' ' || c = '\t' || c = '\n' || c = '\r' || c = '\x0b' || c = '\x0c'

/-- Embeds Python's `str.split(maxsplit=n)` with no separator: skip leading
whitespace; if nothing remains produce no further pieces; once `n` splits
have been made the remainder (after skipping leading whitespace) is kept
whole; otherwise take the run of non-whitespace as the next piece and
recurse on the rest. -/
def pySplitWs : Nat → List Char → List (List Char)
  | 0, s =>
    match s.dropWhile isPySpace with
    | [] => []
    | c :: cs => [c :: cs]
  | m + 1, s =>
    match s.dropWhile isPySpace with
    | [] => []
    | c :: cs =>
      ((c :: cs).takeWhile fun ch => !isPySpace ch) ::
        pySplitWs m ((c :: cs).dropWhile fun ch => !isPySpace ch)

/-- Outcome of processing one line of `vcpkg list` output inside
`VcPkg.list_installed`: a parsed entry, a silently skipped line (a
`ValueError` from a failed destructuring assignment, caught by the
`except ValueError` handler), or an uncaught exception (the `IndexError`
raised by `Triplet.from_string` on a dash-free triplet string, which the
handler does not catch). -/
inductive LineResult where
  | entry (name : List Char) (t : Triplet) (version : List Char)
  | skipped
  | err
deriving DecidableEq

/-- Embeds the per-line body of `VcPkg.list_installed` (pyvcpkg.py lines
105-111): `line.split(maxsplit=2)` must yield exactly three pieces and the
first piece must split on `:` into exactly two, else `ValueError` is raised
and caught (`skipped`); then `Triplet.from_string` parses the triplet
string, whose `IndexError` on failure is not caught (`err`). -/
def parse_line (line : List Char) : LineResult :=
  match pySplitWs 2 line with
  | [name_triplet, version, _descr] =>
    match splitChar ':' name_triplet with
    | [name, triplet_string] =>
      match from_string triplet_string with
      | some t => .entry name t version
      | none => .err
    | _ => .skipped
  | _ => .skipped

/-- Embeds `name_variations.setdefault(name, set()).add((triplet, version))`:
an insertion-ordered association list from names to the collection of added
(triplet, version) pairs, the Python set being modelled as the list of
elements added to it. -/
def insert_entry (m : List (List Char × List (Triplet × List Char)))
    (name : List Char) (tv : Triplet × List Char) :
    List (List Char × List (Triplet × List Char)) :=
  match m with
  | [] => [(name, [tv])]
  | (k, vs) :: rest =>
    if k = name then (k, vs ++ [tv]) :: rest else (k, vs) :: insert_entry rest name tv

/-- Embeds the loop of `VcPkg.list_installed` over the output lines (the
source obtains them by splitting the subprocess output on CRLF); an
uncaught `IndexError` from any line aborts the whole call (`none`). -/
def list_installed (lines : List (List Char)) :
    Option (List (List Char × List (Triplet × List Char))) :=
  lines.foldl
    (fun acc line =>
      acc.bind fun m =>
        match parse_line line with
        | .entry name t version => some (insert_entry m name (t, version))
        | .skipped => some m
        | .err => none)
    (some [])

/-- A filesystem path, as its list of components. -/
abbrev FPath := List String

/-- Embeds `shutil.move(src, dst)` for files on a filesystem modelled as the
list of existing file paths: fails (`FileNotFoundError`, embedded as `none`)
when `src` does not exist, otherwise removes `src`, overwrites any existing
`dst`, and adds `dst`. -/
def pymove (fs : List FPath) (src dst : FPath) : Option (List FPath) :=
  if src ∈ fs then some (dst :: fs.filter fun p => p != src && p != dst) else none

/-- Embeds the `try: shutil.move(...) except FileNotFoundError: pass` pattern
of the fix-up functions in deps.py: a missing source file makes the step a
no-op. -/
def try_move (fs : List FPath) (src dst : FPath) : List FPath :=
  match pymove fs src dst with
  | some fs' => fs'
  | none => fs

/-- The `lib_names` tuple of `fix_bullet3` in deps.py. -/
def BULLET_LIB_NAMES : List String :=
  ["BulletCollision", "BulletDynamics", "BulletSoftBody", "LinearMath"]

/-- Source path of a bullet3 debug library: `path / debug / lib /
(name + "_Debug.lib")`. -/
def bullet_src (path : FPath) (name : String) : FPath :=
  path ++ ["debug", "lib", name ++ "_Debug.lib"]

/-- Target path of a bullet3 debug library rename: `path / debug / lib /
(name + ".lib")`. -/
def bullet_targ (path : FPath) (name : String) : FPath :=
  path ++ ["debug", "lib", name ++ ".lib"]

/-- Embeds `fix_bullet3` from deps.py: for each of the four library names,
move `name_Debug.lib` to `name.lib` inside `debug/lib`, ignoring a missing
source file. -/
def fix_bullet3 (path : FPath) (fs : List FPath) : List FPath :=
  BULLET_LIB_NAMES.foldl
    (fun fs' name => try_move fs' (bullet_src path name) (bullet_targ path name)) fs

/-- Embeds `pathlib.Path.unlink()` (no `missing_ok`): deleting a missing file
raises `FileNotFoundError`, embedded as `none`. -/
def unlink (fs : List FPath) (p : FPath) : Option (List FPath) :=
  if p ∈ fs then some (fs.filter fun q => q != p) else none

/-- Embeds the manifest deletion at the end of the copy action (pyvcpkg.py
lines 231-232): `(dst / CONTROL).unlink()` then `(dst / BUILD_INFO).unlink()`,
with no exception handling around either call. -/
def manifest_cleanup (dst : FPath) (fs : List FPath) : Option (List FPath) :=
  (unlink fs (dst ++ ["CONTROL"])).bind fun fs1 => unlink fs1 (dst ++ ["BUILD_INFO"])

example : "dynamic".toList = ['d', 'y', 'n', 'a', 'm', 'i', 'c'] := rfl
example : splitChar '-' "x86-windows".toList = ["x86".toList, "windows".toList] := by decide
example : from_string "x86-windows".toList
    = some ⟨"x86".toList, "windows".toList, "dynamic".toList⟩ := by decide
example : from_string "x86".toList = none := by decide
example : (from_string "a-b-static".toList).map triplet_str = some "a-b-static".toList := by
  decide
example : pySplitWs 2 "zlib:x64-windows 1.2.11 compression".toList
    = ["zlib:x64-windows".toList, "1.2.11".toList, "compression".toList] := by decide
example : parse_line "zlib:x64-windows 1.2.11 compression".toList
    = .entry "zlib".toList ⟨"x64".toList, "windows".toList, "dynamic".toList⟩
        "1.2.11".toList := by decide
example : parse_line "zlib:x64 1.2.11 compression".toList = .err := by decide
example : parse_line "zlibx64-windows 1.2.11 compression".toList = .skipped := by decide
example : list_installed ["zlib:x64-windows 1.2.11 compression".toList]
    = some [("zlib".toList,
        [(⟨"x64".toList, "windows".toList, "dynamic".toList⟩, "1.2.11".toList)])] := by decide

theorem splitChar_ne_nil (sep : Char) (x : List Char) : splitChar sep x ≠ [] := by
  cases x with
  | nil => simp [splitChar]
  | cons c cs =>
    simp only [splitChar]
    split
    · simp
    · split <;> simp

theorem splitChar_of_not_mem (sep : Char) {a : List Char} (h : sep ∉ a) :
    splitChar sep a = [a] := by
  induction a with
  | nil => rfl
  | cons c cs ih =>
    have hc : ¬(c = sep) := fun hcs => h (hcs ▸ List.mem_cons_self c cs)
    have hcs : sep ∉ cs := fun hm => h (List.mem_cons_of_mem c hm)
    simp only [splitChar, ih hcs]
    simp [hc]

theorem splitChar_append (sep : Char) {a : List Char} (h : sep ∉ a) (r : List Char) :
    splitChar sep (a ++ sep :: r) = a :: splitChar sep r := by
  induction a with
  | nil =>
    simp only [List.nil_append, splitChar]
    cases hr : splitChar sep r with
    | nil => exact absurd hr (splitChar_ne_nil sep r)
    | cons x xs => simp
  | cons c cs ih =>
    have hc : ¬(c = sep) := fun hcs => h (hcs ▸ List.mem_cons_self c cs)
    have hcs : sep ∉ cs := fun hm => h (List.mem_cons_of_mem c hm)
    simp only [List.cons_append, splitChar, List.append_eq]
    rw [ih hcs]
    simp [hc]

/-- Helper: left commutativity of XOR on naturals. -/
theorem xor_left_comm (x y z : Nat) : x ^^^ (y ^^^ z) = y ^^^ (x ^^^ z) := by
  rw [← Nat.xor_assoc, Nat.xor_comm x y, Nat.xor_assoc]

/-- Claim C1: the spec requires triplet equality to hold exactly when all
three fields match pairwise, but the source's `Triplet.__eq__` compares
`self.system` against `other.arch`: evaluated on the triplet
x86/windows/dynamic against an identical copy (all three fields match
pairwise), the source comparison returns false. -/
theorem c1_eq_code_eval :
    triplet_eq ⟨"x86".toList, "windows".toList, "dynamic".toList⟩
      ⟨"x86".toList, "windows".toList, "dynamic".toList⟩ = false := by
  decide

/-- Claim C2: for components a, s free of dashes and a valid linkage
component, the canonical string form round-trips: `a-s-static` parses and
prints back to itself; `a-s` parses and prints back to itself (with linkage
defaulted); and `a-s-dynamic` parses and prints to the canonical `a-s`. -/
theorem c2_roundtrip (a s : List Char) (ha : '-' ∉ a) (hs : '-' ∉ s) :
    ((from_string (a ++ '-' :: (s ++ '-' :: "static".toList))).map triplet_str
        = some (a ++ '-' :: (s ++ '-' :: "static".toList))) ∧
    ((from_string (a ++ '-' :: s)).map triplet_str = some (a ++ '-' :: s)) ∧
    ((from_string (a ++ '-' :: (s ++ '-' :: "dynamic".toList))).map triplet_str
        = some (a ++ '-' :: s)) := by
  have hstat : splitChar '-' (a ++ '-' :: (s ++ '-' :: "static".toList))
      = [a, s, "static".toList] := by
    rw [splitChar_append '-' ha, splitChar_append '-' hs,
      splitChar_of_not_mem '-' (by decide)]
  have hdyn : splitChar '-' (a ++ '-' :: (s ++ '-' :: "dynamic".toList))
      = [a, s, "dynamic".toList] := by
    rw [splitChar_append '-' ha, splitChar_append '-' hs,
      splitChar_of_not_mem '-' (by decide)]
  have htwo : splitChar '-' (a ++ '-' :: s) = [a, s] := by
    rw [splitChar_append '-' ha, splitChar_of_not_mem '-' hs]
  refine ⟨?_, ?_, ?_⟩
  · simp only [from_string]
    rw [hstat]
    simp [triplet_str]
  · simp only [from_string]
    rw [htwo]
    simp [triplet_str]
  · simp only [from_string]
    rw [hdyn]
    simp [triplet_str]

theorem c2_roundtrip_witness :
    (from_string ("x86".toList ++ '-' :: ("windows".toList ++ '-' :: "static".toList))).map
        triplet_str
      = some ("x86".toList ++ '-' :: ("windows".toList ++ '-' :: "static".toList)) :=
  (c2_roundtrip "x86".toList "windows".toList (by decide) (by decide)).1

/-- Claim C5: enumerating archs x86, x64 with system windows and linkages
dynamic, static yields exactly the four triplets in arch-major,
linkage-minor order. -/
theorem c5_cross_product :
    make_triplets ["x86".toList, "x64".toList] ["windows".toList]
        ["dynamic".toList, "static".toList]
      = [⟨"x86".toList, "windows".toList, "dynamic".toList⟩,
         ⟨"x86".toList, "windows".toList, "static".toList⟩,
         ⟨"x64".toList, "windows".toList, "dynamic".toList⟩,
         ⟨"x64".toList, "windows".toList, "static".toList⟩] := by
  decide

/-- Claim C7: `from_string` fails on an input with fewer than two
dash-separated components; on exactly two components it succeeds with
linkage defaulted to dynamic; and whenever a third component equal to
"static" is present the resulting linkage is "static". -/
theorem c7_from_string_components (x : List Char) :
    ((splitChar '-' x).length < 2 → from_string x = none) ∧
    (∀ a s, splitChar '-' x = [a, s] → from_string x = some ⟨a, s, "dynamic".toList⟩) ∧
    (∀ a s rest, splitChar '-' x = a :: s :: "static".toList :: rest →
      from_string x = some ⟨a, s, "static".toList⟩) := by
  refine ⟨?_, ?_, ?_⟩
  · intro hlt
    match hp : splitChar '-' x with
    | [] => simp [from_string, hp]
    | [a] => simp [from_string, hp]
    | a :: b :: t => rw [hp] at hlt; simp at hlt; omega
  · intro a s hp
    simp [from_string, hp]
  · intro a s rest hp
    simp [from_string, hp]

theorem c7_from_string_witness :
    from_string "x86".toList = none ∧
    from_string "x86-windows".toList
      = some ⟨"x86".toList, "windows".toList, "dynamic".toList⟩ ∧
    from_string "x86-windows-static".toList
      = some ⟨"x86".toList, "windows".toList, "static".toList⟩ :=
  ⟨(c7_from_string_components "x86".toList).1 (by decide),
   (c7_from_string_components "x86-windows".toList).2.1 "x86".toList "windows".toList
     (by decide),
   (c7_from_string_components "x86-windows-static".toList).2.2 "x86".toList "windows".toList
     [] (by decide)⟩

/-- Claim C8: the spec requires the -w filter value to be treated as a
comma-separated list of names, but the source stores the raw value unsplit
(CommaSplitter only splits when choices were supplied, and -w supplies
none): on input "bullet3,glm" the action loop receives the single name
"bullet3,glm", not the two names; an absent filter does default to the full
registry. -/
theorem c8_what_filter_eval :
    resolve_what (some "bullet3,glm".toList) = ["bullet3,glm".toList] ∧
    ["bullet3,glm".toList] ≠ ["bullet3".toList, "glm".toList] ∧
    resolve_what none = DEPENDENCIES := by
  refine ⟨rfl, by decide, rfl⟩

/-- Claim C10: the hash of a triplet is the XOR of the hashes of its three
fields, hence invariant under every permutation of the fields, whatever the
underlying string-hash function. -/
theorem c10_hash_permutation (h : List Char → Nat) (a s l : List Char) :
    triplet_hash h ⟨a, s, l⟩ = triplet_hash h ⟨a, l, s⟩ ∧
    triplet_hash h ⟨a, s, l⟩ = triplet_hash h ⟨s, a, l⟩ ∧
    triplet_hash h ⟨a, s, l⟩ = triplet_hash h ⟨s, l, a⟩ ∧
    triplet_hash h ⟨a, s, l⟩ = triplet_hash h ⟨l, a, s⟩ ∧
    triplet_hash h ⟨a, s, l⟩ = triplet_hash h ⟨l, s, a⟩ := by
  simp only [triplet_hash]
  refine ⟨?_, ?_, ?_, ?_, ?_⟩ <;>
    simp [Nat.xor_assoc, Nat.xor_comm, xor_left_comm]

/-- Claim C9: an input with four or more dash-separated components does not
fail: `from_string` builds the triplet from the first three components and
ignores the rest. -/
theorem c9_extra_components (x a b c d : List Char) (rest : List (List Char))
    (h : splitChar '-' x = a :: b :: c :: d :: rest) :
    from_string x = some ⟨a, b, c⟩ := by
  simp [from_string, h]

theorem mem_of_mem_pySplitWs :
    ∀ (n : Nat) (s t : List Char), t ∈ pySplitWs n s → ∀ c ∈ t, c ∈ s := by
  intro n
  induction n with
  | zero =>
    intro s t ht c hc
    simp only [pySplitWs] at ht
    cases hds : s.dropWhile isPySpace with
    | nil => rw [hds] at ht; simp at ht
    | cons x xs =>
      rw [hds] at ht
      simp only [List.mem_singleton] at ht
      subst ht
      exact (List.dropWhile_sublist isPySpace).subset (by rw [hds]; exact hc)
  | succ m ih =>
    intro s t ht c hc
    simp only [pySplitWs] at ht
    cases hds : s.dropWhile isPySpace with
    | nil => rw [hds] at ht; simp at ht
    | cons x xs =>
      rw [hds] at ht
      have hsub : x :: xs ⊆ s := fun y hy =>
        (List.dropWhile_sublist isPySpace).subset (by rw [hds]; exact hy)
      simp only [List.mem_cons] at ht
      rcases ht with ht | ht
      · subst ht
        exact hsub ((List.takeWhile_sublist _).subset hc)
      · exact hsub ((List.dropWhile_sublist _).subset
          (ih ((x :: xs).dropWhile fun ch => !isPySpace ch) t ht c hc))

/-- Claim C3 counterexample: the line `zlib:x64 1.2.11 compression` does not
match the shape `name:triplet version description` (its triplet part has no
dash), yet it is not silently skipped — `Triplet.from_string` raises an
`IndexError` that the `except ValueError` handler does not catch, so
`list_installed` aborts. -/
theorem c3_malformed_triplet_raises :
    list_installed ["zlib:x64 1.2.11 compression".toList] = none := by
  decide

/-- Claim C3 (amended): the line `zlib:x64-windows 1.2.11 compression`
produces the entry mapping zlib to the pair (x64/windows/dynamic, 1.2.11);
a line whose field destructuring fails — in particular any line without a
colon — is silently skipped; but a line of the form `name:triplet ...`
whose triplet part has no dash raises an uncaught error instead of being
skipped. -/
theorem c3_list_parsing (line : List Char) :
    (list_installed ["zlib:x64-windows 1.2.11 compression".toList]
      = some [("zlib".toList,
          [(⟨"x64".toList, "windows".toList, "dynamic".toList⟩, "1.2.11".toList)])]) ∧
    (':' ∉ line → parse_line line = .skipped) := by
  refine ⟨by decide, fun hline => ?_⟩
  unfold parse_line
  split
  · next nt v d h2 =>
    have hnt : ':' ∉ nt := fun hm =>
      hline (mem_of_mem_pySplitWs 2 line nt (by rw [h2]; simp) ':' hm)
    rw [splitChar_of_not_mem ':' hnt]
  · rfl

theorem c3_list_parsing_witness :
    parse_line "zlibx64-windows 1.2.11 compression".toList = LineResult.skipped :=
  (c3_list_parsing "zlibx64-windows 1.2.11 compression".toList).2 (by decide)

theorem fpath_append_ne (prefx : FPath) {x y : List String} (hxy : x ≠ y) :
    prefx ++ x ≠ prefx ++ y :=
  fun h => hxy (List.append_cancel_left h)

/-- Claim C4 counterexample: when the CONTROL manifest is absent from the
destination at delete time, the `unlink` call raises `FileNotFoundError`
(it is invoked without `missing_ok` and with no handler), so the missing
file is not tolerated: on a destination containing only a library file the
cleanup aborts. -/
theorem c4_missing_manifest_raises :
    manifest_cleanup ["out", "x86-windows"]
      [["out", "x86-windows", "zlib.dll"]] = none := by
  decide

/-- Claim C4 (amended): after the copy action, the manifest files CONTROL and
BUILD_INFO are deleted from the destination when both are present; but a
manifest missing at delete time is not tolerated — the unguarded
`Path.unlink()` raises `FileNotFoundError`, aborting the run. -/
theorem c4_manifest_cleanup (dst : FPath) (fs : List FPath) :
    ((dst ++ ["CONTROL"] ∈ fs ∧ dst ++ ["BUILD_INFO"] ∈ fs) →
      ∃ fs', manifest_cleanup dst fs = some fs' ∧
        dst ++ ["CONTROL"] ∉ fs' ∧ dst ++ ["BUILD_INFO"] ∉ fs') ∧
    (dst ++ ["CONTROL"] ∉ fs → manifest_cleanup dst fs = none) ∧
    ((dst ++ ["CONTROL"] ∈ fs ∧ dst ++ ["BUILD_INFO"] ∉ fs) →
      manifest_cleanup dst fs = none) := by
  have hbc : dst ++ ["BUILD_INFO"] ≠ dst ++ ["CONTROL"] :=
    fpath_append_ne dst (by decide)
  refine ⟨?_, ?_, ?_⟩
  · rintro ⟨hc, hb⟩
    have hb1 : dst ++ ["BUILD_INFO"] ∈ fs.filter fun q => q != dst ++ ["CONTROL"] :=
      List.mem_filter.mpr ⟨hb, by simp [hbc]⟩
    refine ⟨(fs.filter fun q => q != dst ++ ["CONTROL"]).filter
        (fun q => q != dst ++ ["BUILD_INFO"]), ?_, ?_, ?_⟩
    · simp [manifest_cleanup, unlink, hc, hb1]
    · intro hmem
      rcases List.mem_filter.mp hmem with ⟨hmem', _⟩
      rcases List.mem_filter.mp hmem' with ⟨_, hne⟩
      simp at hne
    · intro hmem
      rcases List.mem_filter.mp hmem with ⟨_, hne⟩
      simp at hne
  · intro hc
    simp [manifest_cleanup, unlink, hc]
  · rintro ⟨hc, hb⟩
    have hb1 : dst ++ ["BUILD_INFO"] ∉ fs.filter fun q => q != dst ++ ["CONTROL"] :=
      fun hmem => hb (List.mem_filter.mp hmem).1
    simp [manifest_cleanup, unlink, hc, hb1]

theorem c4_manifest_cleanup_witness :
    ∃ fs', manifest_cleanup ["out"] [["out", "CONTROL"], ["out", "BUILD_INFO"]]
        = some fs' ∧
      ["out"] ++ ["CONTROL"] ∉ fs' ∧ ["out"] ++ ["BUILD_INFO"] ∉ fs' :=
  (c4_manifest_cleanup ["out"] [["out", "CONTROL"], ["out", "BUILD_INFO"]]).1
    ⟨by decide, by decide⟩

theorem try_move_of_not_mem (fs : List FPath) (src dst : FPath) (h : src ∉ fs) :
    try_move fs src dst = fs := by
  simp [try_move, pymove, h]

theorem mem_try_move_self (fs : List FPath) (src dst : FPath) (h : src ∈ fs) :
    dst ∈ try_move fs src dst := by
  simp [try_move, pymove, h]

theorem src_not_mem_try_move (fs : List FPath) (src dst : FPath) (h : src ∈ fs)
    (hne : src ≠ dst) : src ∉ try_move fs src dst := by
  simp only [try_move, pymove, if_pos h]
  intro hmem
  rcases List.mem_cons.mp hmem with h1 | h1
  · exact hne h1
  · have h2 := (List.mem_filter.mp h1).2
    simp at h2

theorem mem_try_move_of_ne (fs : List FPath) (src dst q : FPath) (hq : q ∈ fs)
    (hqs : q ≠ src) (hqd : q ≠ dst) : q ∈ try_move fs src dst := by
  by_cases hs : src ∈ fs
  · simp only [try_move, pymove, if_pos hs]
    exact List.mem_cons.mpr (Or.inr (List.mem_filter.mpr ⟨hq, by simp [hqs, hqd]⟩))
  · rw [try_move_of_not_mem fs src dst hs]
    exact hq

theorem not_mem_try_move (fs : List FPath) (src dst q : FPath) (hq : q ∉ fs)
    (hqd : q ≠ dst) : q ∉ try_move fs src dst := by
  by_cases hs : src ∈ fs
  · simp only [try_move, pymove, if_pos hs]
    intro hmem
    rcases List.mem_cons.mp hmem with h1 | h1
    · exact hqd h1
    · exact hq (List.mem_filter.mp h1).1
  · rw [try_move_of_not_mem fs src dst hs]
    exact hq

/-- Claim C6: `fix_bullet3` renames each of the four debug-suffixed static
libraries present under `debug/lib` (the target appears, the source
disappears), and when none of the source files is present it is a complete
no-op — it never raises (it is a total function: every `FileNotFoundError`
is caught). -/
theorem c6_fix_bullet3 (path : FPath) (fs : List FPath) :
    ((∀ n ∈ BULLET_LIB_NAMES, bullet_src path n ∉ fs) → fix_bullet3 path fs = fs) ∧
    (∀ n ∈ BULLET_LIB_NAMES, bullet_src path n ∈ fs →
      bullet_targ path n ∈ fix_bullet3 path fs ∧
        bullet_src path n ∉ fix_bullet3 path fs) := by
  have hP : ∀ x y : String, x ≠ y →
      (path ++ ["debug", "lib", x] : FPath) ≠ path ++ ["debug", "lib", y] :=
    fun x y hxy => fpath_append_ne path (by simp [hxy])
  constructor
  · intro habs
    have h1 := habs "BulletCollision" (by decide)
    have h2 := habs "BulletDynamics" (by decide)
    have h3 := habs "BulletSoftBody" (by decide)
    have h4 := habs "LinearMath" (by decide)
    show try_move (try_move (try_move
        (try_move fs (bullet_src path "BulletCollision") (bullet_targ path "BulletCollision"))
        (bullet_src path "BulletDynamics") (bullet_targ path "BulletDynamics"))
        (bullet_src path "BulletSoftBody") (bullet_targ path "BulletSoftBody"))
        (bullet_src path "LinearMath") (bullet_targ path "LinearMath") = fs
    rw [try_move_of_not_mem _ _ _ h1, try_move_of_not_mem _ _ _ h2,
      try_move_of_not_mem _ _ _ h3, try_move_of_not_mem _ _ _ h4]
  · intro n hn hmem
    simp only [BULLET_LIB_NAMES, List.mem_cons, List.not_mem_nil, or_false] at hn
    have hgoal : bullet_targ path n ∈ fix_bullet3 path fs ∧
        bullet_src path n ∉ fix_bullet3 path fs := by
      rcases hn with rfl | rfl | rfl | rfl
      · have m1 := mem_try_move_self fs _ (bullet_targ path "BulletCollision") hmem
        have o1 := src_not_mem_try_move fs _ (bullet_targ path "BulletCollision") hmem
          (hP _ _ (by decide))
        have m2 := mem_try_move_of_ne _ (bullet_src path "BulletDynamics")
          (bullet_targ path "BulletDynamics") _ m1 (hP _ _ (by decide)) (hP _ _ (by decide))
        have o2 := not_mem_try_move _ (bullet_src path "BulletDynamics")
          (bullet_targ path "BulletDynamics") _ o1 (hP _ _ (by decide))
        have m3 := mem_try_move_of_ne _ (bullet_src path "BulletSoftBody")
          (bullet_targ path "BulletSoftBody") _ m2 (hP _ _ (by decide)) (hP _ _ (by decide))
        have o3 := not_mem_try_move _ (bullet_src path "BulletSoftBody")
          (bullet_targ path "BulletSoftBody") _ o2 (hP _ _ (by decide))
        have m4 := mem_try_move_of_ne _ (bullet_src path "LinearMath")
          (bullet_targ path "LinearMath") _ m3 (hP _ _ (by decide)) (hP _ _ (by decide))
        have o4 := not_mem_try_move _ (bullet_src path "LinearMath")
          (bullet_targ path "LinearMath") _ o3 (hP _ _ (by decide))
        exact ⟨m4, o4⟩
      · have p1 := mem_try_move_of_ne fs (bullet_src path "BulletCollision")
          (bullet_targ path "BulletCollision") _ hmem (hP _ _ (by decide)) (hP _ _ (by decide))
        have m2 := mem_try_move_self _ _ (bullet_targ path "BulletDynamics") p1
        have o2 := src_not_mem_try_move _ _ (bullet_targ path "BulletDynamics") p1
          (hP _ _ (by decide))
        have m3 := mem_try_move_of_ne _ (bullet_src path "BulletSoftBody")
          (bullet_targ path "BulletSoftBody") _ m2 (hP _ _ (by decide)) (hP _ _ (by decide))
        have o3 := not_mem_try_move _ (bullet_src path "BulletSoftBody")
          (bullet_targ path "BulletSoftBody") _ o2 (hP _ _ (by decide))
        have m4 := mem_try_move_of_ne _ (bullet_src path "LinearMath")
          (bullet_targ path "LinearMath") _ m3 (hP _ _ (by decide)) (hP _ _ (by decide))
        have o4 := not_mem_try_move _ (bullet_src path "LinearMath")
          (bullet_targ path "LinearMath") _ o3 (hP _ _ (by decide))
        exact ⟨m4, o4⟩
      · have p1 := mem_try_move_of_ne fs (bullet_src path "BulletCollision")
          (bullet_targ path "BulletCollision") _ hmem (hP _ _ (by decide)) (hP _ _ (by decide))
        have p2 := mem_try_move_of_ne _ (bullet_src path "BulletDynamics")
          (bullet_targ path "BulletDynamics") _ p1 (hP _ _ (by decide)) (hP _ _ (by decide))
        have m3 := mem_try_move_self _ _ (bullet_targ path "BulletSoftBody") p2
        have o3 := src_not_mem_try_move _ _ (bullet_targ path "BulletSoftBody") p2
          (hP _ _ (by decide))
        have m4 := mem_try_move_of_ne _ (bullet_src path "LinearMath")
          (bullet_targ path "LinearMath") _ m3 (hP _ _ (by decide)) (hP _ _ (by decide))
        have o4 := not_mem_try_move _ (bullet_src path "LinearMath")
          (bullet_targ path "LinearMath") _ o3 (hP _ _ (by decide))
        exact ⟨m4, o4⟩
      · have p1 := mem_try_move_of_ne fs (bullet_src path "BulletCollision")
          (bullet_targ path "BulletCollision") _ hmem (hP _ _ (by decide)) (hP _ _ (by decide))
        have p2 := mem_try_move_of_ne _ (bullet_src path "BulletDynamics")
          (bullet_targ path "BulletDynamics") _ p1 (hP _ _ (by decide)) (hP _ _ (by decide))
        have p3 := mem_try_move_of_ne _ (bullet_src path "BulletSoftBody")
          (bullet_targ path "BulletSoftBody") _ p2 (hP _ _ (by decide)) (hP _ _ (by decide))
        have m4 := mem_try_move_self _ _ (bullet_targ path "LinearMath") p3
        have o4 := src_not_mem_try_move _ _ (bullet_targ path "LinearMath") p3
          (hP _ _ (by decide))
        exact ⟨m4, o4⟩
    exact hgoal

theorem c6_fix_bullet3_witness :
    bullet_targ ["p"] "BulletCollision"
        ∈ fix_bullet3 ["p"] [bullet_src ["p"] "BulletCollision"] ∧
      bullet_src ["p"] "BulletCollision"
        ∉ fix_bullet3 ["p"] [bullet_src ["p"] "BulletCollision"] :=
  (c6_fix_bullet3 ["p"] [bullet_src ["p"] "BulletCollision"]).2 "BulletCollision"
    (by decide) (List.mem_singleton.mpr rfl)

theorem c9_extra_components_witness :
    from_string "a-b-c-d".toList = some ⟨"a".toList, "b".toList, "c".toList⟩ :=
  c9_extra_components "a-b-c-d".toList "a".toList "b".toList "c".toList "d".toList []
    (by decide)

end PyVcpkg
